import Mathlib

/-!
Verification of the booking and ledger engine of the `flow` repository.

The functions below are shallow embeddings of the JavaScript source:
* `createAppointment`, `confirmAppointment`, `cancelAppointment` embed
  `src/services/booking.js`;
* `recordPayment`, `waiveAmount` embed the `POST /ledger/payments` and
  `POST /ledger/waive` handlers of `backend/src/routes/doctors.js`;
* `createCreditNote`, `returnMoney` embed `createCreditNote` and the
  `POST /ledger/return` handler.

Conventions of the embedding:
* monetary amounts and instants are `Int` (the JS code performs exact
  arithmetic on these values in every scenario considered; instants are in
  minutes, so `end = start + durationMinutes`);
* the Prisma database is a record of lists; a transaction is a pure function
  `DB → Except BookingError DB`-shaped value; a thrown error aborts the
  transaction, i.e. returns `.error` and no partial state;
* audit-log rows and reminder rows are not modelled: no claim refers to them
  and they never feed back into the behaviour of the modelled operations;
* the source status string "partially_paid" is rendered as `partPaid` and the
  ledger kind "return" (a JS string, but a Lean keyword) as `ret`.
-/

namespace Flow

/-- Appointment status, from the `AppointmentStatus` Postgres enum. -/
inductive AppointmentStatus where
  | scheduled
  | confirmed
  | completed
  | cancelled
  | noShow      -- 'no_show' in source
deriving DecidableEq, Repr

/-- Order (obligation) status, from the `OrderStatus` Postgres enum.
`partPaid` renders the source status string "partially_paid". -/
inductive OrderStatus where
  | pending
  | partPaid
  | paid
  | cancelled
deriving DecidableEq, Repr

/-- Ledger entry kind. `ret` renders the source kind string "return",
`waive` and `ret` are written by the route handlers. -/
inductive LedgerKind where
  | charge
  | payment
  | credit
  | waive
  | refund
  | ret
deriving DecidableEq, Repr

/-- Payment method (`PaymentMethod` enum after the bundles migration). -/
inductive PaymentMethod where
  | cash
  | serviceCredit   -- 'service_credit' in source
deriving DecidableEq, Repr

/-- Errors thrown by the embedded transactions; each constructor corresponds
to one `throw new Error(...)` site (or an aborting null dereference). -/
inductive BookingError where
  | sessionTypeNotFound
  | capacityExceeded        -- 'Capacity reached for this time slot (6 appointments max).'
  | providerConflict        -- 'Doctor already has an appointment during this time.'
  | appointmentNotFound
  | cannotConfirm           -- 'Appointment cannot be confirmed'
  | noServiceCredits        -- 'No service credits available for this session type'
  | patientNotFound
  | cannotCancelCompleted   -- 'Cannot cancel completed appointment'
  | orderNotFound
  | insufficientCredit      -- 'Insufficient credit balance'
deriving DecidableEq, Repr

structure Patient where
  id : Nat
  creditBalance : Int
deriving DecidableEq, Repr

structure SessionType where
  id : Nat
  price : Int
  durationMinutes : Int
deriving DecidableEq, Repr

structure Appointment where
  id : Nat
  patientId : Nat
  doctorId : Nat
  sessionTypeId : Nat
  startAt : Int
  endAt : Int
  status : AppointmentStatus
  finalPrice : Option Int
deriving DecidableEq, Repr

structure Order where
  id : Nat
  patientId : Nat
  appointmentId : Option Nat
  subtotal : Int
  totalDue : Int
  status : OrderStatus
  createdAt : Nat
deriving DecidableEq, Repr

structure LedgerEntry where
  patientId : Nat
  orderId : Option Nat
  kind : LedgerKind
  amount : Int
deriving DecidableEq, Repr

structure ServiceCredit where
  id : Nat
  patientId : Nat
  sessionTypeId : Nat
  quantity : Int
deriving DecidableEq, Repr

/-- The database state. `seq` supplies fresh ids and creation timestamps for
new rows (rows are created with strictly increasing `createdAt`). -/
structure DB where
  patients : List Patient
  sessionTypes : List SessionType
  appointments : List Appointment
  orders : List Order
  ledger : List LedgerEntry
  serviceCredits : List ServiceCredit
  seq : Nat
deriving DecidableEq, Repr

/-- Append one ledger row (`tx.ledger.create`). -/
def appendLedger (db : DB) (e : LedgerEntry) : DB :=
  { db with ledger := db.ledger ++ [e] }

/-- `tx.order.update` of the status field. -/
def setOrderStatus (db : DB) (oid : Nat) (st : OrderStatus) : DB :=
  { db with orders := db.orders.map fun o =>
      if o.id == oid then { o with status := st } else o }

/-- `tx.patient.update` with `creditBalance: { increment: delta }`. -/
def addCredit (db : DB) (pid : Nat) (delta : Int) : DB :=
  { db with patients := db.patients.map fun p =>
      if p.id == pid then { p with creditBalance := p.creditBalance + delta } else p }

def findSessionType (db : DB) (tid : Nat) : Option SessionType :=
  db.sessionTypes.find? fun t => t.id == tid

def findAppointment (db : DB) (aid : Nat) : Option Appointment :=
  db.appointments.find? fun a => a.id == aid

def findOrder (db : DB) (oid : Nat) : Option Order :=
  db.orders.find? fun o => o.id == oid

def findPatient (db : DB) (pid : Nat) : Option Patient :=
  db.patients.find? fun p => p.id == pid

/-! ## Booking engine: `createAppointment` (src/services/booking.js) -/

/-- The three-branch overlap test used by both capacity queries in
`createAppointment`: the existing interval `[aStart, aEnd)` "conflicts"
with the new interval `[s, e)` when the existing appointment starts during
the new one, ends during it, or completely covers it. -/
def overlapBranches (s e aStart aEnd : Int) : Bool :=
  (decide (s ≤ aStart) && decide (aStart < e)) ||
  (decide (s < aEnd) && decide (aEnd ≤ e)) ||
  (decide (aStart ≤ s) && decide (e ≤ aEnd))

/-- Modelled from the spec: the single-predicate overlap reference test
`existing.start < end AND existing.end > start`. -/
def specOverlap (s e aStart aEnd : Int) : Bool :=
  decide (aStart < e) && decide (s < aEnd)

/-- The global-capacity count: non-cancelled appointments whose interval
conflicts (three-branch test) with the requested interval. -/
def globalConflictCount (db : DB) (s e : Int) : Nat :=
  (db.appointments.filter fun a =>
    (a.status != .cancelled) && overlapBranches s e a.startAt a.endAt).length

/-- The doctor-conflict check (`findFirst` on the same three-branch test,
restricted to the requested doctor). -/
def doctorHasConflict (db : DB) (doctorId : Nat) (s e : Int) : Bool :=
  db.appointments.any fun a =>
    (a.doctorId == doctorId) && (a.status != .cancelled) &&
    overlapBranches s e a.startAt a.endAt

/-- `createAppointment`: look up the session type, normalize the interval to
`[startAt, startAt + duration)`, check global capacity (limit 6), then the
doctor conflict, then insert the appointment with status `scheduled`. -/
def createAppointment (db : DB) (patientId doctorId sessionTypeId : Nat)
    (startAt : Int) : Except BookingError (DB × Appointment) :=
  match findSessionType db sessionTypeId with
  | none => .error .sessionTypeNotFound
  | some sessionType =>
    let s := startAt
    let e := startAt + sessionType.durationMinutes
    if 6 ≤ globalConflictCount db s e then
      .error .capacityExceeded
    else if doctorHasConflict db doctorId s e then
      .error .providerConflict
    else
      let appointment : Appointment :=
        { id := db.seq, patientId, doctorId, sessionTypeId,
          startAt := s, endAt := e, status := .scheduled, finalPrice := none }
      .ok ({ db with appointments := db.appointments ++ [appointment],
                     seq := db.seq + 1 }, appointment)

/-- The number of appointments conflicting under the spec's single-predicate
overlap test (status ≠ cancelled and `start < e ∧ s < end`). -/
def specConflictCount (db : DB) (s e : Int) : Nat :=
  (db.appointments.filter fun a =>
    (a.status != .cancelled) && specOverlap s e a.startAt a.endAt).length

/-! ## Booking engine: `confirmAppointment` and `cancelAppointment` -/

/-- The credit applied at cash confirmation time:
`min(patient.creditBalance, chargeAmount)` when the balance is positive. -/
def creditToApply (patient : Patient) (servicePrice : Int) : Int :=
  if 0 < patient.creditBalance then min patient.creditBalance servicePrice else 0

/-- `confirmAppointment`: requires status `scheduled`; the obligation's
principal is always the catalog price; `finalPrice` only affects the recorded
payment amount (JS truthiness: `finalPrice || servicePrice`, so `0` falls back
to the catalog price).  The service-credit branch consumes one credit and
marks the order paid; the cash branch first applies any positive patient
credit balance, then creates the order, the charge entry, and (when the paid
amount is positive) the payment entry.  The source stores status `completed`
on the appointment.  A missing session-type or patient row aborts the
transaction (a null dereference in the source). -/
def confirmAppointment (db : DB) (appointmentId : Nat) (finalPrice : Option Int)
    (paymentMethod : PaymentMethod) : Except BookingError (DB × Order) :=
  match findAppointment db appointmentId with
  | none => .error .appointmentNotFound
  | some appointment =>
  if appointment.status != .scheduled then .error .cannotConfirm
  else
  match findSessionType db appointment.sessionTypeId,
        findPatient db appointment.patientId with
  | some sessionType, some patient =>
    let servicePrice := sessionType.price
    match paymentMethod with
    | .serviceCredit =>
      match db.serviceCredits.find? (fun c =>
          (c.patientId == appointment.patientId) &&
          (c.sessionTypeId == appointment.sessionTypeId) &&
          decide (0 < c.quantity)) with
      | none => .error .noServiceCredits
      | some sc =>
        let db1 := { db with serviceCredits := db.serviceCredits.map fun (c : ServiceCredit) =>
            if c.id == sc.id then { c with quantity := c.quantity - 1 } else c }
        let db2 := { db1 with appointments := db1.appointments.map fun (a : Appointment) =>
            if a.id == appointment.id then
              { a with status := .completed, finalPrice := some servicePrice }
            else a }
        let order : Order :=
          { id := db.seq, patientId := appointment.patientId,
            appointmentId := some appointment.id, subtotal := servicePrice,
            totalDue := servicePrice, status := .paid, createdAt := db.seq }
        let db3 := { db2 with orders := db2.orders ++ [order], seq := db.seq + 1 }
        let db4 := appendLedger db3
          { patientId := appointment.patientId, orderId := some order.id,
            kind := .charge, amount := servicePrice }
        let db5 := appendLedger db4
          { patientId := appointment.patientId, orderId := some order.id,
            kind := .payment, amount := servicePrice }
        .ok (db5, order)
    | .cash =>
      -- JS: `let paidAmount = finalPrice || servicePrice` (0 is falsy)
      let paidAmount := match finalPrice with
        | some p => if p == 0 then servicePrice else p
        | none => servicePrice
      let creditToUse := creditToApply patient servicePrice
      let effectivePrice := servicePrice - creditToUse
      let db1 := if 0 < creditToUse then
          appendLedger (addCredit db appointment.patientId (-creditToUse))
            { patientId := appointment.patientId, orderId := none,
              kind := .credit, amount := -creditToUse }
        else db
      let db2 := { db1 with appointments := db1.appointments.map fun (a : Appointment) =>
          if a.id == appointment.id then
            { a with status := .completed, finalPrice := some servicePrice }
          else a }
      let orderStatus :=
        if paidAmount < effectivePrice then OrderStatus.partPaid else OrderStatus.paid
      let order : Order :=
        { id := db.seq, patientId := appointment.patientId,
          appointmentId := some appointment.id, subtotal := servicePrice,
          totalDue := servicePrice, status := orderStatus, createdAt := db.seq }
      let db3 := { db2 with orders := db2.orders ++ [order], seq := db.seq + 1 }
      let db4 := appendLedger db3
        { patientId := appointment.patientId, orderId := some order.id,
          kind := .charge, amount := servicePrice }
      let db5 := if 0 < paidAmount then
          appendLedger db4
            { patientId := appointment.patientId, orderId := some order.id,
              kind := .payment, amount := paidAmount }
        else db4
      .ok (db5, order)
  | _, _ => .error .sessionTypeNotFound

/-- `cancelAppointment`: rejects only appointments in status `completed`;
sets status `cancelled` and, for every order of the appointment whose status
is `paid` or `partially_paid`, emits a refund entry of `-totalDue`.  (The
source also marks pending reminders failed; reminders are not modelled.) -/
def cancelAppointment (db : DB) (appointmentId : Nat) : Except BookingError DB :=
  match findAppointment db appointmentId with
  | none => .error .appointmentNotFound
  | some appointment =>
  if appointment.status == .completed then .error .cannotCancelCompleted
  else
    let db1 := { db with appointments := db.appointments.map fun (a : Appointment) =>
        if a.id == appointmentId then { a with status := .cancelled } else a }
    let apptOrders := db.orders.filter fun o => o.appointmentId == some appointmentId
    let db2 := apptOrders.foldl (fun acc o =>
        if (o.status == .paid) || (o.status == .partPaid) then
          appendLedger acc
            { patientId := appointment.patientId, orderId := some o.id,
              kind := .refund, amount := -o.totalDue }
        else acc) db1
    .ok db2

/-! ## Ledger allocator: `POST /ledger/payments` and `POST /ledger/waive`
(backend/src/routes/doctors.js) -/

/-- Sum of the payment-kind entries attached to order `oid`
(`order.ledgers.filter(l => l.kind === 'payment')` summed). -/
def orderPayments (ledger : List LedgerEntry) (oid : Nat) : Int :=
  (ledger.filter fun l => (l.orderId == some oid) && (l.kind == .payment)).foldl
    (fun s l => s + l.amount) 0

/-- `Math.abs` of the sum of the waive-kind entries attached to order `oid`
(waive entries are stored with negative amounts). -/
def orderWaives (ledger : List LedgerEntry) (oid : Nat) : Int :=
  |(ledger.filter fun l => (l.orderId == some oid) && (l.kind == .waive)).foldl
    (fun s l => s + l.amount) 0|

/-- One step of the payment allocation: `amountDue = totalDue − totalPaid`
(payment entries only — the payments handler does not subtract waives),
apply `min(remaining, amountDue)` when positive, update the status to `paid`
when the new cumulative reaches the total (else `partially_paid`).
`view` is the ledger snapshot from which `order.ledgers` was populated. -/
def applyPaymentToOrder (view : List LedgerEntry) (db : DB) (patientId : Nat)
    (o : Order) (remaining : Int) : DB × Int :=
  let totalPaid := orderPayments view o.id
  let amountDue := o.totalDue - totalPaid
  let paymentForOrder := min remaining amountDue
  if 0 < paymentForOrder then
    let db1 := appendLedger db
      { patientId, orderId := some o.id, kind := .payment, amount := paymentForOrder }
    let newStatus :=
      if o.totalDue ≤ totalPaid + paymentForOrder then OrderStatus.paid
      else OrderStatus.partPaid
    (setOrderStatus db1 o.id newStatus, remaining - paymentForOrder)
  else (db, remaining)

/-- Insert an order into a list sorted by ascending `createdAt`. -/
def insertByCreatedAt (o : Order) : List Order → List Order
  | [] => [o]
  | x :: xs =>
    if o.createdAt ≤ x.createdAt then o :: x :: xs else x :: insertByCreatedAt o xs

/-- Insertion sort by ascending `createdAt` (`orderBy: { createdAt: 'asc' }`). -/
def sortByCreatedAt : List Order → List Order
  | [] => []
  | x :: xs => insertByCreatedAt x (sortByCreatedAt xs)

/-- The general-payment fetch: the patient's orders with status `pending` or
`partially_paid`, ordered by creation time ascending. -/
def unpaidOrdersOf (db : DB) (patientId : Nat) : List Order :=
  sortByCreatedAt (db.orders.filter fun o =>
    (o.patientId == patientId) &&
    ((o.status == .pending) || (o.status == .partPaid)))

/-- The general-payment loop over the fetched orders; `view` is the ledger
snapshot taken at fetch time (each `order.ledgers` in the source is populated
by that one query, not re-read inside the loop). -/
def allocateGeneral (patientId : Nat) (view : List LedgerEntry) :
    List Order → DB → Int → DB × Int
  | [], db, remaining => (db, remaining)
  | o :: os, db, remaining =>
    if remaining ≤ 0 then (db, remaining)
    else
      let step := applyPaymentToOrder view db patientId o remaining
      allocateGeneral patientId view os step.1 step.2

/-- The `POST /ledger/payments` transaction.  With a target order, allocate
to it only; otherwise run the FIFO loop over the patient's unpaid orders.
Any positive remainder increments the patient's `creditBalance` and emits a
credit entry.  Finally the handler's `return tx.ledger.create(...)` appends
one more payment entry for the full amount, carrying the request's target
order id. -/
def recordPayment (db : DB) (patientId : Nat) (amount : Int)
    (orderId : Option Nat) : DB :=
  let step :=
    match orderId with
    | some oid =>
      match findOrder db oid with
      | some order => applyPaymentToOrder db.ledger db patientId order amount
      | none => (db, amount)   -- source: `if (order) { ... }`, silently skipped
    | none => allocateGeneral patientId db.ledger (unpaidOrdersOf db patientId) db amount
  let db2 := if 0 < step.2 then
      appendLedger (addCredit step.1 patientId step.2)
        { patientId, orderId := none, kind := .credit, amount := step.2 }
    else step.1
  appendLedger db2 { patientId, orderId := orderId, kind := .payment, amount := amount }

/-- One step of the waive allocation: here `amountDue` subtracts both prior
payments and prior waives, clamped at 0; the waive entry is stored with a
negative amount. -/
def applyWaiveToOrder (view : List LedgerEntry) (db : DB) (patientId : Nat)
    (o : Order) (remaining : Int) : DB × Int :=
  let totalPaid := orderPayments view o.id
  let totalWaived := orderWaives view o.id
  let amountDue := max 0 (o.totalDue - totalPaid - totalWaived)
  let waiveForOrder := min remaining amountDue
  if 0 < waiveForOrder then
    let db1 := appendLedger db
      { patientId, orderId := some o.id, kind := .waive, amount := -waiveForOrder }
    let newStatus :=
      if o.totalDue ≤ totalPaid + totalWaived + waiveForOrder then OrderStatus.paid
      else OrderStatus.partPaid
    (setOrderStatus db1 o.id newStatus, remaining - waiveForOrder)
  else (db, remaining)

/-- The waive spill-over loop across the patient's other unpaid orders. -/
def allocateWaiveLoop (patientId : Nat) (view : List LedgerEntry) :
    List Order → DB → Int → DB × Int
  | [], db, remaining => (db, remaining)
  | o :: os, db, remaining =>
    if remaining ≤ 0 then (db, remaining)
    else
      let step := applyWaiveToOrder view db patientId o remaining
      allocateWaiveLoop patientId view os step.1 step.2

/-- The `POST /ledger/waive` transaction: a target order is mandatory; after
the target, a positive remainder spills to the patient's other unpaid orders
(oldest first), and any final remainder becomes patient credit.  Unlike the
payments handler, no summary entry is appended. -/
def waiveAmount (db : DB) (patientId : Nat) (amount : Int) (orderId : Nat) :
    Except BookingError DB :=
  match findOrder db orderId with
  | none => .error .orderNotFound
  | some order =>
    let step1 := applyWaiveToOrder db.ledger db patientId order amount
    let step2 := if 0 < step1.2 then
        allocateWaiveLoop patientId step1.1.ledger
          (sortByCreatedAt (step1.1.orders.filter fun o =>
            (o.patientId == patientId) && (o.id != orderId) &&
            ((o.status == .pending) || (o.status == .partPaid))))
          step1.1 step1.2
      else step1
    if 0 < step2.2 then
      .ok (appendLedger (addCredit step2.1 patientId step2.2)
        { patientId, orderId := none, kind := .credit, amount := step2.2 })
    else .ok step2.1

/-- `createCreditNote` (billing service): appends a credit-kind entry of
`-Math.abs(amount)`; the patient's cached `creditBalance` is not touched. -/
def createCreditNote (db : DB) (patientId : Nat) (orderId : Option Nat)
    (amount : Int) : DB :=
  appendLedger db { patientId, orderId, kind := .credit, amount := -|amount| }

/-- The `POST /ledger/return` transaction: requires sufficient cached credit
balance, decrements it, and appends a return-kind entry of `-amount`. -/
def returnMoney (db : DB) (patientId : Nat) (amount : Int) :
    Except BookingError DB :=
  match findPatient db patientId with
  | none => .error .patientNotFound
  | some patient =>
    if patient.creditBalance < amount then .error .insufficientCredit
    else
      .ok (appendLedger (addCredit db patientId (-amount))
        { patientId, orderId := none, kind := .ret, amount := -amount })

/-! ## Spec-side reference definitions -/

/-- Modelled from the spec: recompute an obligation's settlement status from
its full ledger-entry history — `paid` if cumulative payments plus waives
reach the total due, else `partially_paid`. -/
def derivedStatus (ledger : List LedgerEntry) (o : Order) : OrderStatus :=
  if o.totalDue ≤ orderPayments ledger o.id + orderWaives ledger o.id then
    OrderStatus.paid
  else OrderStatus.partPaid

/-- Sum of the credit-kind ledger entries of one patient. -/
def creditSum (ledger : List LedgerEntry) (pid : Nat) : Int :=
  (ledger.filter fun l => (l.patientId == pid) && (l.kind == .credit)).foldl
    (fun s l => s + l.amount) 0

/-- The ledger-conservation invariant: every patient's cached `creditBalance`
equals the sum of that patient's credit-kind ledger entries. -/
def CreditInv (db : DB) : Prop :=
  ∀ p ∈ db.patients, p.creditBalance = creditSum db.ledger p.id

/-- Modelled from the spec: the FIFO allocation decisions.  Walking the given
obligations in order, each receives `min(remaining, totalDue − prior
payments)` (computed against the ledger snapshot `view`) when that is
positive, with new status `paid` when the cumulative payments reach the
total, else `partially_paid`; returns the per-obligation applications and
the final remainder. -/
def specFifoAlloc (view : List LedgerEntry) : Int → List Order →
    List (Nat × Int × OrderStatus) × Int
  | A, [] => ([], A)
  | A, o :: os =>
    if A ≤ 0 then ([], A)
    else
      let totalPaid := orderPayments view o.id
      let applied := min A (o.totalDue - totalPaid)
      if 0 < applied then
        let st := if o.totalDue ≤ totalPaid + applied then OrderStatus.paid
                  else OrderStatus.partPaid
        let rest := specFifoAlloc view (A - applied) os
        ((o.id, applied, st) :: rest.1, rest.2)
      else specFifoAlloc view A os

/-- Materialize a list of allocation decisions: for each `(oid, amt, st)`,
append one payment entry of `amt` for order `oid` and set its status to
`st`. -/
def applyApps (patientId : Nat) : List (Nat × Int × OrderStatus) → DB → DB
  | [], db => db
  | (oid, amt, st) :: rest, db =>
    applyApps patientId rest
      (setOrderStatus
        (appendLedger db { patientId, orderId := some oid, kind := .payment, amount := amt })
        oid st)

/-- `true` iff the transaction committed. -/
def bookingSucceeds (r : Except BookingError (DB × Appointment)) : Bool :=
  match r with
  | .ok _ => true
  | .error _ => false

instance {ε α : Type} [DecidableEq ε] [DecidableEq α] : DecidableEq (Except ε α) :=
  fun a b =>
    match a, b with
    | .ok x, .ok y =>
      if h : x = y then isTrue (by rw [h])
      else isFalse (by intro hc; injection hc; contradiction)
    | .error x, .error y =>
      if h : x = y then isTrue (by rw [h])
      else isFalse (by intro hc; injection hc; contradiction)
    | .ok _, .error _ => isFalse (by intro hc; cases hc)
    | .error _, .ok _ => isFalse (by intro hc; cases hc)

instance (db : DB) : Decidable (CreditInv db) := by
  unfold CreditInv
  infer_instance

/-! ## Concrete scenario states used by the claims -/

/-- Patient 1 with two open obligations: O1 (id 1, due 50, created first) and
O2 (id 2, due 100, created second); empty ledger. -/
def dbFifo : DB :=
  { patients := [⟨1, 0⟩], sessionTypes := [], appointments := [],
    orders := [⟨1, 1, none, 50, 50, .pending, 1⟩, ⟨2, 1, none, 100, 100, .pending, 2⟩],
    ledger := [], serviceCredits := [], seq := 3 }

/-- Patient 1 with a single pending obligation of total 100 and no ledger
history. -/
def dbOneOrder : DB :=
  { patients := [⟨1, 0⟩], sessionTypes := [], appointments := [],
    orders := [⟨1, 1, none, 100, 100, .pending, 1⟩],
    ledger := [], serviceCredits := [], seq := 2 }

/-- A scheduled appointment (id 1) for a 175-priced, 60-minute service. -/
def dbScheduled175 : DB :=
  { patients := [⟨1, 0⟩], sessionTypes := [⟨1, 175, 60⟩],
    appointments := [⟨1, 1, 1, 1, 600, 660, .scheduled, none⟩],
    orders := [], ledger := [], serviceCredits := [], seq := 2 }

/-- The state `confirmAppointment dbScheduled175 1 (some 100) cash` produces,
except that the appointment status is `confirmed` (the status the repo's own
tests expect after confirmation) instead of the `completed` the source
stores. -/
def dbConfirmed175 : DB :=
  { patients := [⟨1, 0⟩], sessionTypes := [⟨1, 175, 60⟩],
    appointments := [⟨1, 1, 1, 1, 600, 660, .confirmed, some 175⟩],
    orders := [⟨2, 1, some 1, 175, 175, .partPaid, 2⟩],
    ledger := [⟨1, some 2, .charge, 175⟩, ⟨1, some 2, .payment, 100⟩],
    serviceCredits := [], seq := 3 }

/-- A scheduled appointment that already carries a partially-paid obligation
of total 175. -/
def dbCancelTwice : DB :=
  { patients := [⟨1, 0⟩], sessionTypes := [],
    appointments := [⟨1, 1, 1, 1, 600, 660, .scheduled, none⟩],
    orders := [⟨1, 1, some 1, 175, 175, .partPaid, 1⟩],
    ledger := [], serviceCredits := [], seq := 2 }

/-- One of six identical-slot appointments held by six distinct doctors. -/
def slotAppt (i : Nat) : Appointment := ⟨i, 1, i, 1, 600, 660, .scheduled, none⟩

/-- Six non-cancelled appointments by six distinct doctors all occupying the
slot [600, 660). -/
def dbCap6 : DB :=
  { patients := [⟨1, 0⟩], sessionTypes := [⟨1, 150, 60⟩],
    appointments := [slotAppt 1, slotAppt 2, slotAppt 3, slotAppt 4, slotAppt 5, slotAppt 6],
    orders := [], ledger := [], serviceCredits := [], seq := 7 }

/-- An otherwise empty clinic with a zero-duration session type. -/
def dbZeroDur : DB :=
  { patients := [⟨1, 0⟩], sessionTypes := [⟨1, 150, 0⟩], appointments := [],
    orders := [], ledger := [], serviceCredits := [], seq := 1 }

/-- A single patient with no history. -/
def dbOnePatient : DB :=
  { patients := [⟨1, 0⟩], sessionTypes := [], appointments := [],
    orders := [], ledger := [], serviceCredits := [], seq := 1 }

/-- A patient holding a credit balance of 30 backed by one credit entry (the
conservation invariant holds here). -/
def dbWithCredit : DB :=
  { patients := [⟨1, 30⟩], sessionTypes := [], appointments := [],
    orders := [], ledger := [⟨1, none, .credit, 30⟩], serviceCredits := [], seq := 1 }

theorem overlapBranches_eq_specOverlap (s e aStart aEnd : Int)
    (hnew : s < e) (hold : aStart < aEnd) :
    overlapBranches s e aStart aEnd = specOverlap s e aStart aEnd := by
  rw [Bool.eq_iff_iff]
  simp only [overlapBranches, specOverlap, Bool.or_eq_true, Bool.and_eq_true,
    decide_eq_true_eq]
  omega

theorem globalConflictCount_eq_spec (db : DB) (s e : Int) (hnew : s < e)
    (hwf : ∀ a ∈ db.appointments, a.startAt < a.endAt) :
    globalConflictCount db s e = specConflictCount db s e := by
  unfold globalConflictCount specConflictCount
  congr 1
  apply List.filter_congr
  intro a ha
  rw [overlapBranches_eq_specOverlap s e a.startAt a.endAt hnew (hwf a ha)]


/-! ## Helper lemmas -/

theorem mem_insertByCreatedAt {x o : Order} {l : List Order} :
    x ∈ insertByCreatedAt o l ↔ x = o ∨ x ∈ l := by
  induction l with
  | nil => simp [insertByCreatedAt]
  | cons y ys ih =>
    simp only [insertByCreatedAt]
    split
    · simp [List.mem_cons]
    · simp only [List.mem_cons, ih]
      tauto

theorem pairwise_insertByCreatedAt {o : Order} {l : List Order}
    (h : l.Pairwise fun a b => a.createdAt ≤ b.createdAt) :
    (insertByCreatedAt o l).Pairwise fun a b => a.createdAt ≤ b.createdAt := by
  induction l with
  | nil => simp [insertByCreatedAt]
  | cons y ys ih =>
    rw [List.pairwise_cons] at h
    simp only [insertByCreatedAt]
    split
    · rename_i hle
      refine List.Pairwise.cons ?_ (List.Pairwise.cons h.1 h.2)
      intro b hb
      rcases List.mem_cons.mp hb with rfl | hb'
      · exact hle
      · exact le_trans hle (h.1 b hb')
    · rename_i hgt
      refine List.Pairwise.cons ?_ (ih h.2)
      intro b hb
      rcases mem_insertByCreatedAt.mp hb with rfl | hb'
      · omega
      · exact h.1 b hb'

theorem pairwise_sortByCreatedAt (l : List Order) :
    (sortByCreatedAt l).Pairwise fun a b => a.createdAt ≤ b.createdAt := by
  induction l with
  | nil => simp [sortByCreatedAt]
  | cons x xs ih => exact pairwise_insertByCreatedAt ih

theorem perm_insertByCreatedAt (o : Order) (l : List Order) :
    (insertByCreatedAt o l).Perm (o :: l) := by
  induction l with
  | nil => simp [insertByCreatedAt]
  | cons y ys ih =>
    simp only [insertByCreatedAt]
    split
    · exact List.Perm.refl _
    · exact (ih.cons y).trans (List.Perm.swap o y ys)

theorem perm_sortByCreatedAt (l : List Order) : (sortByCreatedAt l).Perm l := by
  induction l with
  | nil => simp [sortByCreatedAt]
  | cons x xs ih => exact (perm_insertByCreatedAt x _).trans (ih.cons x)

/-- The general-payment loop is exactly the materialization of the spec-side
FIFO allocation decisions. -/
theorem allocateGeneral_eq_applyApps (patientId : Nat) (view : List LedgerEntry)
    (os : List Order) : ∀ (db : DB) (A : Int),
    allocateGeneral patientId view os db A =
      (applyApps patientId (specFifoAlloc view A os).1 db,
       (specFifoAlloc view A os).2) := by
  induction os with
  | nil => intro db A; simp [allocateGeneral, specFifoAlloc, applyApps]
  | cons o os ih =>
    intro db A
    simp only [allocateGeneral, specFifoAlloc, applyPaymentToOrder]
    by_cases hA : A ≤ 0
    · simp [hA, applyApps]
    · simp only [hA, if_false]
      by_cases happ : 0 < min A (o.totalDue - orderPayments view o.id)
      · simp only [happ, if_true, applyApps, ih]
      · simp only [happ, if_false, ih]

/-! ## Claim theorems -/

/-- C5 (code bug, failing input): a targeted payment of 50 against a fresh
obligation of total 100 stores status `partially_paid`, yet recomputing the
status from the obligation's full ledger-entry history afterwards yields
`paid`: the handler's closing `tx.ledger.create` appends a second, duplicate
payment entry for the full amount carrying the same order id, so the history
holds payments of 100 against a total of 100.  The stored and the recomputed
status disagree. -/
theorem c5_status_derivation_diverges :
    (recordPayment dbOneOrder 1 50 (some 1)).orders.map Order.status
        = [OrderStatus.partPaid]
    ∧ (recordPayment dbOneOrder 1 50 (some 1)).ledger
        = [⟨1, some 1, .payment, 50⟩, ⟨1, some 1, .payment, 50⟩]
    ∧ derivedStatus (recordPayment dbOneOrder 1 50 (some 1)).ledger
        ⟨1, 1, none, 100, 100, OrderStatus.partPaid, 1⟩ = OrderStatus.paid
    ∧ OrderStatus.partPaid ≠ OrderStatus.paid := by decide

/-- C6 (code bug, failing input): confirming the 175-priced appointment with
a collected amount of 100 leaves the obligation `partially_paid` — but the
confirmation stores appointment status `completed` (the repo's own tests
expect `confirmed`), so the subsequent cancel is rejected with "Cannot cancel
completed appointment" instead of succeeding.  On the same post-confirmation
state with status `confirmed` — the state the tests describe — the cancel
succeeds and emits exactly the refund entry of −175 (full total due) that the
claim expects. -/
theorem c6_cancel_after_partial_payment_bug :
    ((confirmAppointment dbScheduled175 1 (some 100) .cash).map fun r =>
        (r.2.totalDue, r.2.status, (r.1.appointments.map Appointment.status),
         cancelAppointment r.1 1))
      = .ok (175, .partPaid, [.completed], .error .cannotCancelCompleted)
    ∧ ((cancelAppointment dbConfirmed175 1).map fun d =>
        d.ledger.filter fun l => l.kind == .refund)
      = .ok [⟨1, some 2, .refund, -175⟩] := by decide

/-- C3 (counterexample): with obligations O1 (due 50) and O2 (due 100), a
payment of 120 targeted at O1 applies 50 to O1 and then converts the entire
remainder of 70 directly into patient credit — O2 stays `pending` with no
payment applied, contradicting the claim that the remainder continues across
the patient's other non-settled obligations. -/
theorem c3_counterexample :
    ((recordPayment dbFifo 1 120 (some 1)).orders.map fun o => (o.id, o.status))
        = [(1, .paid), (2, .pending)]
    ∧ orderPayments (recordPayment dbFifo 1 120 (some 1)).ledger 2 = 0
    ∧ ((recordPayment dbFifo 1 120 (some 1)).ledger.filter fun l => l.kind == .credit)
        = [⟨1, none, .credit, 70⟩]
    ∧ (recordPayment dbFifo 1 120 (some 1)).patients.map Patient.creditBalance
        = [70] := by decide

/-- C4 (counterexample): creating a credit note appends a credit-kind ledger
entry of −30 without touching the patient's cached `creditBalance`, so the
cached balance (0) no longer equals the sum of credit-kind entries (−30);
likewise a money return decrements the balance while writing a return-kind
entry, breaking the equality from the other side. -/
theorem c4_counterexample :
    CreditInv dbOnePatient
    ∧ ¬ CreditInv (createCreditNote dbOnePatient 1 none 30)
    ∧ CreditInv dbWithCredit
    ∧ returnMoney dbWithCredit 1 20 =
        .ok ⟨[⟨1, 10⟩], [], [], [],
             [⟨1, none, .credit, 30⟩, ⟨1, none, .ret, -20⟩], [], 1⟩
    ∧ ¬ CreditInv ⟨[⟨1, 10⟩], [], [], [],
             [⟨1, none, .credit, 30⟩, ⟨1, none, .ret, -20⟩], [], 1⟩ := by decide

/-- C7 (counterexample): with 6 non-cancelled appointments by 6 distinct
doctors occupying the slot, a 7th request reusing doctor 1 — violating both
limits — fails with the capacity error, not the provider-conflict error the
claim asserts: the global capacity check runs before the provider check. -/
theorem c7_counterexample :
    createAppointment dbCap6 1 1 1 600 = .error .capacityExceeded
    ∧ BookingError.capacityExceeded ≠ BookingError.providerConflict := by decide

/-- C7 (amended): both the 7th request with an unused 7th doctor and the 7th
request with an already-used doctor fail with `CapacityExceeded`; in general
the global capacity check is evaluated first, so whenever the conflicting
count is at least 6 the request fails with the capacity error regardless of
any provider conflict. -/
theorem c7_capacity_precedence_amended :
    (createAppointment dbCap6 1 7 1 600 = .error .capacityExceeded)
    ∧ (createAppointment dbCap6 1 1 1 600 = .error .capacityExceeded)
    ∧ ∀ (db : DB) (patientId doctorId sessionTypeId : Nat) (startAt : Int)
        (st : SessionType),
        findSessionType db sessionTypeId = some st →
        6 ≤ globalConflictCount db startAt (startAt + st.durationMinutes) →
        createAppointment db patientId doctorId sessionTypeId startAt
          = .error .capacityExceeded := by
  refine ⟨by decide, by decide, ?_⟩
  intro db patientId doctorId sessionTypeId startAt st hfind hcap
  unfold createAppointment
  rw [hfind]
  dsimp only
  rw [if_pos hcap]

/-- C7 witness for the amended theorem's general part. -/
theorem c7_witness :
    findSessionType dbCap6 1 = some ⟨1, 150, 60⟩
    ∧ 6 ≤ globalConflictCount dbCap6 600 (600 + 60)
    ∧ createAppointment dbCap6 1 1 1 600 = .error .capacityExceeded :=
  ⟨by decide, by decide,
   c7_capacity_precedence_amended.2.2 dbCap6 1 1 1 600 ⟨1, 150, 60⟩
     (by decide) (by decide)⟩

/-- C8 (counterexample): with a zero-duration session type the normalized
interval is [600, 600) (end = start), yet the create request is not rejected
as invalid input — it commits and inserts the degenerate appointment. -/
theorem c8_counterexample :
    bookingSucceeds (createAppointment dbZeroDur 1 1 1 600) = true
    ∧ (createAppointment dbZeroDur 1 1 1 600).map (fun r => (r.2.startAt, r.2.endAt))
        = .ok (600, 600) := by decide

/-- C8 (amended): `createAppointment` performs no well-formedness check on
the normalized interval: when the session type's duration is ≤ 0 the request
proceeds straight to the capacity counting, and if the capacity and provider
checks pass it inserts an appointment with `endAt ≤ startAt` instead of
rejecting the input. -/
theorem c8_no_interval_validation_amended :
    ∀ (db : DB) (patientId doctorId sessionTypeId : Nat) (startAt : Int)
      (st : SessionType),
      findSessionType db sessionTypeId = some st →
      st.durationMinutes ≤ 0 →
      globalConflictCount db startAt (startAt + st.durationMinutes) < 6 →
      doctorHasConflict db doctorId startAt (startAt + st.durationMinutes) = false →
      ∃ db' a, createAppointment db patientId doctorId sessionTypeId startAt
          = .ok (db', a) ∧ a.endAt ≤ a.startAt := by
  intro db patientId doctorId sessionTypeId startAt st hfind hdur hcap hdoc
  unfold createAppointment
  rw [hfind]
  dsimp only
  rw [if_neg (by omega), hdoc]
  rw [if_neg (by simp)]
  exact ⟨_, _, rfl, by dsimp only; omega⟩

/-- C8 witness for the amended theorem. -/
theorem c8_witness :
    findSessionType dbZeroDur 1 = some ⟨1, 150, 0⟩
    ∧ (∃ db' a, createAppointment dbZeroDur 1 1 1 600 = .ok (db', a)
        ∧ a.endAt ≤ a.startAt) :=
  ⟨by decide,
   c8_no_interval_validation_amended dbZeroDur 1 1 1 600 ⟨1, 150, 0⟩
     (by decide) (by decide) (by decide) (by decide)⟩

/-- C1 (confirmed): for a well-formed request (session type found, positive
duration) over a well-formed store, the create request is rejected with the
capacity error exactly when at least 6 existing non-cancelled appointments
overlap `[start, end)` under the spec's single-predicate test; and the
code's three-branch overlap test agrees with the single predicate on every
pair of well-formed intervals. -/
theorem c1_capacity_admission_matches_spec
    (db : DB) (patientId doctorId sessionTypeId : Nat) (startAt : Int)
    (st : SessionType)
    (hfind : findSessionType db sessionTypeId = some st)
    (hdur : 0 < st.durationMinutes)
    (hwf : ∀ a ∈ db.appointments, a.startAt < a.endAt) :
    (createAppointment db patientId doctorId sessionTypeId startAt
        = .error .capacityExceeded
      ↔ 6 ≤ specConflictCount db startAt (startAt + st.durationMinutes))
    ∧ ∀ s e aS aE : Int, s < e → aS < aE →
        overlapBranches s e aS aE = specOverlap s e aS aE := by
  constructor
  · have hcnt := globalConflictCount_eq_spec db startAt
      (startAt + st.durationMinutes) (by omega) hwf
    unfold createAppointment
    rw [hfind]
    dsimp only
    by_cases hcap : 6 ≤ globalConflictCount db startAt (startAt + st.durationMinutes)
    · rw [if_pos hcap]
      rw [hcnt] at hcap
      simp [hcap]
    · rw [if_neg hcap]
      rw [hcnt] at hcap
      constructor
      · intro h
        split at h <;> simp_all
      · intro h
        omega
  · intro s e aS aE h1 h2
    exact overlapBranches_eq_specOverlap s e aS aE h1 h2

/-- C1 witness: the admission criterion instantiated on the six-appointment
store. -/
theorem c1_witness :
    findSessionType dbCap6 1 = some ⟨1, 150, 60⟩
    ∧ (0 : Int) < 60
    ∧ (∀ a ∈ dbCap6.appointments, a.startAt < a.endAt)
    ∧ (createAppointment dbCap6 1 7 1 600 = .error .capacityExceeded
        ↔ 6 ≤ specConflictCount dbCap6 600 (600 + 60)) :=
  ⟨by decide, by decide, by decide,
   (c1_capacity_admission_matches_spec dbCap6 1 7 1 600 ⟨1, 150, 60⟩
     (by decide) (by decide) (by decide)).1⟩

/-- C10 (confirmed): `cancelAppointment` rejects exactly the appointments in
status `completed`; in particular cancelling an already-cancelled appointment
succeeds again and re-runs the refund loop, so cancelling the scheduled
appointment with a partially-paid obligation of 175 twice emits two refund
entries of −175 each. -/
theorem c10_cancel_guard_and_double_refund :
    (∀ (db : DB) (aid : Nat) (a : Appointment),
       findAppointment db aid = some a →
       (cancelAppointment db aid = .error .cannotCancelCompleted
         ↔ a.status = .completed))
    ∧ ((cancelAppointment dbCancelTwice 1).map fun d =>
        d.appointments.map Appointment.status) = .ok [.cancelled]
    ∧ (((cancelAppointment dbCancelTwice 1).bind fun d =>
          cancelAppointment d 1).map fun d =>
        d.ledger.filter fun l => l.kind == .refund)
      = .ok [⟨1, some 1, .refund, -175⟩, ⟨1, some 1, .refund, -175⟩] := by
  refine ⟨?_, by decide, by decide⟩
  intro db aid a hfind
  unfold cancelAppointment
  rw [hfind]
  by_cases hst : a.status = AppointmentStatus.completed
  · simp [hst]
  · simp [beq_iff_eq, hst]

/-- C10 witness: the guard instantiated on the scheduled appointment. -/
theorem c10_witness :
    findAppointment dbCancelTwice 1 = some ⟨1, 1, 1, 1, 600, 660, .scheduled, none⟩
    ∧ (cancelAppointment dbCancelTwice 1 = .error .cannotCancelCompleted
        ↔ (⟨1, 1, 1, 1, 600, 660, .scheduled, none⟩ : Appointment).status = .completed) :=
  ⟨by decide,
   c10_cancel_guard_and_double_refund.1 dbCancelTwice 1
     ⟨1, 1, 1, 1, 600, 660, .scheduled, none⟩ (by decide)⟩

/-- C3 (amended): a targeted payment computes the target's amount due as
total minus prior *payment* entries only (waive entries are not subtracted),
applies `min(A, amountDue)` to the target with one entry and a status
update, and converts any remainder directly into patient credit; the
patient's other obligations are never touched, and the handler finally
appends a summary payment entry of the full amount. -/
theorem c3_targeted_payment_amended :
    ∀ (db : DB) (patientId : Nat) (A : Int) (oid : Nat) (order : Order),
      findOrder db oid = some order →
      recordPayment db patientId A (some oid) =
        (let totalPaid := orderPayments db.ledger order.id
         let applied := min A (order.totalDue - totalPaid)
         let db1 := if 0 < applied then
             setOrderStatus
               (appendLedger db
                 { patientId, orderId := some order.id, kind := .payment, amount := applied })
               order.id
               (if order.totalDue ≤ totalPaid + applied then .paid else .partPaid)
           else db
         let rem := A - (if 0 < applied then applied else 0)
         let db2 := if 0 < rem then
             appendLedger (addCredit db1 patientId rem)
               { patientId, orderId := none, kind := .credit, amount := rem }
           else db1
         appendLedger db2 { patientId, orderId := some oid, kind := .payment, amount := A }) := by
  intro db patientId A oid order hfind
  unfold recordPayment
  dsimp only
  rw [hfind]
  dsimp only
  unfold applyPaymentToOrder
  by_cases happ : 0 < min A (order.totalDue - orderPayments db.ledger order.id)
  · simp only [happ, if_true]
  · simp only [happ, if_false]
    simp

/-- C3 witness: the amended behaviour instantiated on the two-obligation
store — the target gets 50, the remaining 70 becomes credit, O2 untouched. -/
theorem c3_witness :
    recordPayment dbFifo 1 120 (some 1) =
      appendLedger
        (appendLedger
          (addCredit
            (setOrderStatus
              (appendLedger dbFifo ⟨1, some 1, .payment, 50⟩) 1 .paid)
            1 70)
          ⟨1, none, .credit, 70⟩)
        ⟨1, some 1, .payment, 120⟩ := by
  have h := c3_targeted_payment_amended dbFifo 1 120 1
    ⟨1, 1, none, 50, 50, .pending, 1⟩ (by decide)
  rw [h]
  decide

/-- C2 (confirmed): an untargeted payment processes exactly the patient's
pending/partially-paid obligations, sorted ascending by creation time, and
the resulting state materializes the spec-side FIFO allocation decisions:
each processed obligation receives `min(remaining, amount due)` as one
payment entry with the derived status, any positive remainder increments the
credit balance with one credit entry, and a summary entry closes the
transaction.  On the spec's concrete scenario (O1 due 50, O2 due 100,
payment 120): O1 `paid`, O2 `partially_paid` with 70 applied, no overflow
credit. -/
theorem c2_untargeted_fifo_allocation :
    (∀ (db : DB) (patientId : Nat) (A : Int), 0 < A →
      ((unpaidOrdersOf db patientId).Pairwise fun a b => a.createdAt ≤ b.createdAt)
      ∧ (unpaidOrdersOf db patientId).Perm (db.orders.filter fun o =>
            (o.patientId == patientId) &&
            ((o.status == .pending) || (o.status == .partPaid)))
      ∧ recordPayment db patientId A none =
          (let alloc := specFifoAlloc db.ledger A (unpaidOrdersOf db patientId)
           let db1 := applyApps patientId alloc.1 db
           let db2 := if 0 < alloc.2 then
               appendLedger (addCredit db1 patientId alloc.2)
                 { patientId, orderId := none, kind := .credit, amount := alloc.2 }
             else db1
           appendLedger db2 { patientId, orderId := none, kind := .payment, amount := A }))
    ∧ ((recordPayment dbFifo 1 120 none).orders.map fun o => (o.id, o.status))
        = [(1, .paid), (2, .partPaid)]
    ∧ orderPayments (recordPayment dbFifo 1 120 none).ledger 1 = 50
    ∧ orderPayments (recordPayment dbFifo 1 120 none).ledger 2 = 70
    ∧ ((recordPayment dbFifo 1 120 none).ledger.filter fun l => l.kind == .credit) = []
    ∧ (recordPayment dbFifo 1 120 none).patients.map Patient.creditBalance = [0] := by
  refine ⟨?_, by decide, by decide, by decide, by decide, by decide⟩
  intro db patientId A hA
  refine ⟨pairwise_sortByCreatedAt _, perm_sortByCreatedAt _, ?_⟩
  unfold recordPayment
  rw [allocateGeneral_eq_applyApps]

/-- C2 witness: the FIFO description instantiated on the concrete
two-obligation store. -/
theorem c2_witness :
    (0 : Int) < 120
    ∧ ((unpaidOrdersOf dbFifo 1).Pairwise fun a b => a.createdAt ≤ b.createdAt) :=
  ⟨by decide, (c2_untargeted_fifo_allocation.1 dbFifo 1 120 (by decide)).1⟩


/-- Closed form of the cash-path confirmation with `finalPrice = 0`: the JS
truthiness fallback makes the paid amount the full catalog price. -/
theorem confirm_cash_some_zero_eq (db : DB) (aid : Nat)
    (appointment : Appointment) (st : SessionType) (patient : Patient)
    (hA : findAppointment db aid = some appointment)
    (hs : (appointment.status != .scheduled) = false)
    (hst : findSessionType db appointment.sessionTypeId = some st)
    (hp : findPatient db appointment.patientId = some patient) :
    confirmAppointment db aid (some 0) .cash =
      (let c := creditToApply patient st.price
       let db1 := if 0 < c then
           appendLedger (addCredit db appointment.patientId (-c))
             { patientId := appointment.patientId, orderId := none,
               kind := .credit, amount := -c }
         else db
       let db2 := { db1 with appointments := db1.appointments.map fun (a : Appointment) =>
           if a.id == appointment.id then
             { a with status := .completed, finalPrice := some st.price }
           else a }
       let order : Order :=
         { id := db.seq, patientId := appointment.patientId,
           appointmentId := some appointment.id, subtotal := st.price,
           totalDue := st.price,
           status := if st.price < st.price - c then OrderStatus.partPaid else OrderStatus.paid,
           createdAt := db.seq }
       let db3 := { db2 with orders := db2.orders ++ [order], seq := db.seq + 1 }
       let db4 := appendLedger db3
         { patientId := appointment.patientId, orderId := some order.id,
           kind := .charge, amount := st.price }
       let db5 := if 0 < st.price then
           appendLedger db4
             { patientId := appointment.patientId, orderId := some order.id,
               kind := .payment, amount := st.price }
         else db4
       .ok (db5, order)) := by
  unfold confirmAppointment
  rw [hA]
  dsimp only
  rw [hs]
  simp only [Bool.false_eq_true, if_false]
  rw [hst, hp]
  rfl

/-- C9 (confirmed): in the confirm path, `finalPrice = 0` is falsy in the
source's `finalPrice || servicePrice`, so it behaves identically to omitting
`finalPrice` (for every state and payment method); in the cash path the
resulting obligation is `paid` and the appended payment entry — present
exactly when the catalog price is positive — records the full catalog price,
so no confirmation can record a collected amount of zero through
`finalPrice`. -/
theorem c9_zero_final_price :
    (∀ (db : DB) (aid : Nat) (pm : PaymentMethod),
       confirmAppointment db aid (some 0) pm = confirmAppointment db aid none pm)
    ∧ ∀ (db : DB) (aid : Nat) (db' : DB) (o : Order),
       (∀ t ∈ db.sessionTypes, 0 ≤ t.price) →
       confirmAppointment db aid (some 0) .cash = .ok (db', o) →
       o.status = .paid
       ∧ ∃ pre, db'.ledger = db.ledger ++ pre
           ∧ ((pre.filter fun l => l.kind == .payment).map LedgerEntry.amount)
               = (if 0 < o.totalDue then [o.totalDue] else []) := by
  constructor
  · intro db aid pm
    rfl
  · intro db aid db' o hprices hconf
    have hcopy := hconf
    unfold confirmAppointment at hconf
    split at hconf
    · cases hconf
    · split at hconf
      · cases hconf
      · split at hconf
        · rename_i appointment hA hns _ _ st patient hst hpat
          have hs : (appointment.status != .scheduled) = false := by
            simpa using hns
          have hstmem : st ∈ db.sessionTypes := by
            have h2 := hst
            unfold findSessionType at h2
            exact List.mem_of_find?_eq_some h2
          have hsp : 0 ≤ st.price := hprices st hstmem
          rw [confirm_cash_some_zero_eq db aid appointment st patient hA hs hst hpat] at hcopy
          rw [Except.ok.injEq, Prod.mk.injEq] at hcopy
          obtain ⟨h5, ho⟩ := hcopy
          have hc0 : 0 ≤ creditToApply patient st.price := by
            unfold creditToApply
            split
            · exact le_min (by omega) hsp
            · omega
          subst ho
          constructor
          · dsimp only
            rw [if_neg (by omega)]
          · refine ⟨(if 0 < creditToApply patient st.price then
                [({ patientId := appointment.patientId, orderId := none,
                    kind := .credit, amount := -(creditToApply patient st.price) } : LedgerEntry)]
              else []) ++
              [{ patientId := appointment.patientId, orderId := some db.seq,
                 kind := .charge, amount := st.price }] ++
              (if 0 < st.price then
                [({ patientId := appointment.patientId, orderId := some db.seq,
                    kind := .payment, amount := st.price } : LedgerEntry)]
              else []), ?_, ?_⟩
            · subst h5
              by_cases hc : 0 < creditToApply patient st.price <;>
                by_cases hpr : 0 < st.price <;>
                  simp [hc, hpr, appendLedger, addCredit, List.append_assoc]
            · by_cases hc : 0 < creditToApply patient st.price <;>
                by_cases hpr : 0 < st.price <;>
                  simp [hc, hpr]
        · cases hconf

/-- C9 witness: confirming the scheduled 175-priced appointment with
`finalPrice = 0` records a payment of the full 175 and a paid obligation. -/
theorem c9_witness :
    (confirmAppointment dbScheduled175 1 (some 0) .cash
        = confirmAppointment dbScheduled175 1 none .cash)
    ∧ ((⟨2, 1, some 1, 175, 175, .paid, 2⟩ : Order).status = .paid
       ∧ ∃ pre,
           (⟨[⟨1, 0⟩], [⟨1, 175, 60⟩], [⟨1, 1, 1, 1, 600, 660, .completed, some 175⟩],
             [⟨2, 1, some 1, 175, 175, .paid, 2⟩],
             [⟨1, some 2, .charge, 175⟩, ⟨1, some 2, .payment, 175⟩], [], 3⟩ : DB).ledger
             = dbScheduled175.ledger ++ pre
           ∧ ((pre.filter fun l => l.kind == .payment).map LedgerEntry.amount)
               = (if 0 < (⟨2, 1, some 1, 175, 175, .paid, 2⟩ : Order).totalDue
                  then [(⟨2, 1, some 1, 175, 175, .paid, 2⟩ : Order).totalDue] else [])) :=
  ⟨c9_zero_final_price.1 dbScheduled175 1 .cash,
   c9_zero_final_price.2 dbScheduled175 1
     ⟨[⟨1, 0⟩], [⟨1, 175, 60⟩], [⟨1, 1, 1, 1, 600, 660, .completed, some 175⟩],
      [⟨2, 1, some 1, 175, 175, .paid, 2⟩],
      [⟨1, some 2, .charge, 175⟩, ⟨1, some 2, .payment, 175⟩], [], 3⟩
     ⟨2, 1, some 1, 175, 175, .paid, 2⟩
     (by decide) (by decide)⟩

theorem creditSum_append (ledger : List LedgerEntry) (e : LedgerEntry) (pid : Nat) :
    creditSum (ledger ++ [e]) pid =
      creditSum ledger pid +
        (if (e.patientId == pid) && (e.kind == .credit) then e.amount else 0) := by
  unfold creditSum
  rw [List.filter_append]
  by_cases h : ((e.patientId == pid) && (e.kind == LedgerKind.credit)) = true
  · simp [h, List.foldl_append]
  · simp [h, List.foldl_append]

theorem creditInv_appendLedger_noncredit {db : DB} {e : LedgerEntry}
    (hk : (e.kind == LedgerKind.credit) = false) (h : CreditInv db) :
    CreditInv (appendLedger db e) := by
  intro p hp
  show p.creditBalance = creditSum (db.ledger ++ [e]) p.id
  rw [creditSum_append]
  rw [hk]
  simp only [Bool.and_false, Bool.false_eq_true, if_false, add_zero]
  exact h p hp

theorem creditInv_lockstep {db : DB} {pid : Nat} {r : Int} (h : CreditInv db) :
    CreditInv (appendLedger (addCredit db pid r)
      { patientId := pid, orderId := none, kind := .credit, amount := r }) := by
  intro p hp
  have hp' : p ∈ (db.patients.map fun q =>
      if q.id == pid then { q with creditBalance := q.creditBalance + r } else q) := hp
  simp only [List.mem_map] at hp'
  obtain ⟨q, hq, hpq⟩ := hp'
  have hbal := h q hq
  show p.creditBalance = creditSum (db.ledger ++
    [{ patientId := pid, orderId := none, kind := .credit, amount := r }]) p.id
  rw [creditSum_append]
  by_cases hid : q.id = pid
  · rw [if_pos (by simp [hid])] at hpq
    subst hpq
    have hcond : ((pid == ({ q with creditBalance := q.creditBalance + r } : Patient).id)
        && (LedgerKind.credit == LedgerKind.credit)) = true := by
      simp [beq_iff_eq, hid]
    rw [if_pos hcond]
    show q.creditBalance + r = creditSum db.ledger q.id + r
    rw [hbal]
  · rw [if_neg (by simp [hid])] at hpq
    subst hpq
    have hcond : ((pid == q.id) && (LedgerKind.credit == LedgerKind.credit)) = false := by
      simp only [beq_self_eq_true, Bool.and_true, beq_eq_false_iff_ne, ne_eq]
      exact fun hc => hid hc.symm
    rw [hcond]
    simp only [Bool.false_eq_true, if_false, add_zero]
    exact hbal

theorem creditInv_applyPaymentToOrder (view : List LedgerEntry) (db : DB)
    (patientId : Nat) (o : Order) (remaining : Int) (h : CreditInv db) :
    CreditInv (applyPaymentToOrder view db patientId o remaining).1 := by
  unfold applyPaymentToOrder
  by_cases hc : 0 < min remaining (o.totalDue - orderPayments view o.id)
  · simp only [hc, if_true]
    refine fun p hp => creditInv_appendLedger_noncredit ?_ h p hp
    rfl
  · simp only [hc, if_false]
    exact h

theorem creditInv_allocateGeneral (patientId : Nat) (view : List LedgerEntry)
    (os : List Order) : ∀ (db : DB) (A : Int), CreditInv db →
    CreditInv (allocateGeneral patientId view os db A).1 := by
  induction os with
  | nil => intro db A h; simpa [allocateGeneral] using h
  | cons o os ih =>
    intro db A h
    simp only [allocateGeneral]
    by_cases hA : A ≤ 0
    · simp only [hA, if_true]
      exact h
    · simp only [hA, if_false]
      exact ih _ _ (creditInv_applyPaymentToOrder view db patientId o A h)

theorem creditInv_applyWaiveToOrder (view : List LedgerEntry) (db : DB)
    (patientId : Nat) (o : Order) (remaining : Int) (h : CreditInv db) :
    CreditInv (applyWaiveToOrder view db patientId o remaining).1 := by
  unfold applyWaiveToOrder
  by_cases hc : 0 < min remaining (max 0 (o.totalDue - orderPayments view o.id - orderWaives view o.id))
  · simp only [hc, if_true]
    refine fun p hp => creditInv_appendLedger_noncredit ?_ h p hp
    rfl
  · simp only [hc, if_false]
    exact h

theorem creditInv_allocateWaiveLoop (patientId : Nat) (view : List LedgerEntry)
    (os : List Order) : ∀ (db : DB) (A : Int), CreditInv db →
    CreditInv (allocateWaiveLoop patientId view os db A).1 := by
  induction os with
  | nil => intro db A h; simpa [allocateWaiveLoop] using h
  | cons o os ih =>
    intro db A h
    simp only [allocateWaiveLoop]
    by_cases hA : A ≤ 0
    · simp only [hA, if_true]
      exact h
    · simp only [hA, if_false]
      exact ih _ _ (creditInv_applyWaiveToOrder view db patientId o A h)

theorem creditInv_finish (db1 : DB) (patientId : Nat) (r A : Int)
    (oid : Option Nat) (h : CreditInv db1) :
    CreditInv (appendLedger
      (if 0 < r then
        appendLedger (addCredit db1 patientId r)
          { patientId, orderId := none, kind := .credit, amount := r }
      else db1)
      { patientId, orderId := oid, kind := .payment, amount := A }) := by
  by_cases hr : 0 < r
  · simp only [hr, if_true]
    exact creditInv_appendLedger_noncredit rfl (creditInv_lockstep h)
  · simp only [hr, if_false]
    exact creditInv_appendLedger_noncredit rfl h

theorem creditInv_recordPayment (db : DB) (patientId : Nat) (A : Int)
    (oid : Option Nat) (h : CreditInv db) :
    CreditInv (recordPayment db patientId A oid) := by
  unfold recordPayment
  cases oid with
  | none =>
    dsimp only
    exact creditInv_finish _ _ _ _ _ (creditInv_allocateGeneral _ _ _ _ _ h)
  | some x =>
    dsimp only
    cases hfo : findOrder db x with
    | none =>
      dsimp only
      exact creditInv_finish _ _ _ _ _ h
    | some order =>
      dsimp only
      exact creditInv_finish _ _ _ _ _
        (creditInv_applyPaymentToOrder db.ledger db patientId order A h)

theorem creditInv_waiveAmount (db : DB) (patientId : Nat) (A : Int) (oid : Nat)
    (db' : DB) (h : CreditInv db) (hok : waiveAmount db patientId A oid = .ok db') :
    CreditInv db' := by
  unfold waiveAmount at hok
  split at hok
  · cases hok
  · rename_i order hfo
    dsimp only at hok
    have h1 : CreditInv (applyWaiveToOrder db.ledger db patientId order A).1 :=
      creditInv_applyWaiveToOrder _ _ _ _ _ h
    by_cases hb : 0 < (applyWaiveToOrder db.ledger db patientId order A).2
    · rw [if_pos hb] at hok
      have h2 := creditInv_allocateWaiveLoop patientId
        (applyWaiveToOrder db.ledger db patientId order A).1.ledger
        (sortByCreatedAt ((applyWaiveToOrder db.ledger db patientId order A).1.orders.filter
          fun o => (o.patientId == patientId) && (o.id != oid) &&
            ((o.status == .pending) || (o.status == .partPaid))))
        (applyWaiveToOrder db.ledger db patientId order A).1
        (applyWaiveToOrder db.ledger db patientId order A).2 h1
      split at hok
      · injection hok with hh
        subst hh
        exact creditInv_lockstep h2
      · injection hok with hh
        subst hh
        exact h2
    · rw [if_neg hb] at hok
      rw [if_neg hb] at hok
      injection hok with hh
      subst hh
      exact h1

/-- Closed form of the cash-path confirmation for an arbitrary `finalPrice`. -/
theorem confirm_cash_eq (db : DB) (aid : Nat) (fp : Option Int)
    (appointment : Appointment) (st : SessionType) (patient : Patient)
    (hA : findAppointment db aid = some appointment)
    (hs : (appointment.status != .scheduled) = false)
    (hst : findSessionType db appointment.sessionTypeId = some st)
    (hp : findPatient db appointment.patientId = some patient) :
    confirmAppointment db aid fp .cash =
      (let paidAmount := match fp with
         | some p => if p == 0 then st.price else p
         | none => st.price
       let c := creditToApply patient st.price
       let db1 := if 0 < c then
           appendLedger (addCredit db appointment.patientId (-c))
             { patientId := appointment.patientId, orderId := none,
               kind := .credit, amount := -c }
         else db
       let db2 := { db1 with appointments := db1.appointments.map fun (a : Appointment) =>
           if a.id == appointment.id then
             { a with status := .completed, finalPrice := some st.price }
           else a }
       let order : Order :=
         { id := db.seq, patientId := appointment.patientId,
           appointmentId := some appointment.id, subtotal := st.price,
           totalDue := st.price,
           status := if paidAmount < st.price - c then OrderStatus.partPaid else OrderStatus.paid,
           createdAt := db.seq }
       let db3 := { db2 with orders := db2.orders ++ [order], seq := db.seq + 1 }
       let db4 := appendLedger db3
         { patientId := appointment.patientId, orderId := some order.id,
           kind := .charge, amount := st.price }
       let db5 := if 0 < paidAmount then
           appendLedger db4
             { patientId := appointment.patientId, orderId := some order.id,
               kind := .payment, amount := paidAmount }
         else db4
       .ok (db5, order)) := by
  unfold confirmAppointment
  rw [hA]
  dsimp only
  rw [hs]
  simp only [Bool.false_eq_true, if_false]
  rw [hst, hp]

theorem creditInv_confirm (db : DB) (aid : Nat) (fp : Option Int)
    (pm : PaymentMethod) (db' : DB) (o : Order) (h : CreditInv db)
    (hok : confirmAppointment db aid fp pm = .ok (db', o)) : CreditInv db' := by
  have hcopy := hok
  unfold confirmAppointment at hok
  split at hok
  · cases hok
  · split at hok
    · cases hok
    · split at hok
      · rename_i appointment hA hns _ _ st patient hst hpat
        have hs : (appointment.status != .scheduled) = false := by
          simpa using hns
        cases pm with
        | serviceCredit =>
          cases hsc : List.find? (fun c =>
              (c.patientId == appointment.patientId) &&
              (c.sessionTypeId == appointment.sessionTypeId) &&
              decide (0 < c.quantity)) db.serviceCredits with
          | none =>
            rw [hsc] at hok
            cases hok
          | some sc =>
            rw [hsc] at hok
            dsimp only at hok
            rw [Except.ok.injEq, Prod.mk.injEq] at hok
            obtain ⟨h5, -⟩ := hok
            subst h5
            refine creditInv_appendLedger_noncredit ?_ (creditInv_appendLedger_noncredit ?_ ?_)
            · rfl
            · rfl
            · exact fun p hp => h p hp
        | cash =>
          rw [confirm_cash_eq db aid fp appointment st patient hA hs hst hpat] at hcopy
          dsimp only at hcopy
          rw [Except.ok.injEq, Prod.mk.injEq] at hcopy
          obtain ⟨h5, -⟩ := hcopy
          subst h5
          have h1 : CreditInv (if 0 < creditToApply patient st.price then
              appendLedger (addCredit db appointment.patientId (-(creditToApply patient st.price)))
                { patientId := appointment.patientId, orderId := none,
                  kind := .credit, amount := -(creditToApply patient st.price) }
            else db) := by
            by_cases hc : 0 < creditToApply patient st.price
            · simp only [hc, if_true]
              exact creditInv_lockstep h
            · simp only [hc, if_false]
              exact h
          by_cases hpay : 0 < (match fp with
            | some p => if p == 0 then st.price else p
            | none => st.price)
          · rw [if_pos hpay]
            refine creditInv_appendLedger_noncredit ?_ (creditInv_appendLedger_noncredit ?_ ?_)
            · rfl
            · rfl
            · exact fun p hp => h1 p hp
          · rw [if_neg hpay]
            refine creditInv_appendLedger_noncredit ?_ ?_
            · rfl
            · exact fun p hp => h1 p hp
      · cases hok


/-- C4 (amended): the conservation equality `creditBalance = Σ credit-kind
entries` is preserved by every payment allocation, every successful waiver
allocation, and every successful confirmation (including its credit
consumption step) — these change the cached balance and the credit-entry sum
in lockstep.  It is the credit-note and money-return operations that break
the equality (see the counterexample). -/
theorem c4_credit_conservation_amended (db : DB) (h : CreditInv db) :
    (∀ (patientId : Nat) (A : Int) (oid : Option Nat),
        CreditInv (recordPayment db patientId A oid))
    ∧ (∀ (patientId : Nat) (A : Int) (oid : Nat) (db' : DB),
        waiveAmount db patientId A oid = .ok db' → CreditInv db')
    ∧ (∀ (aid : Nat) (fp : Option Int) (pm : PaymentMethod) (db' : DB) (o : Order),
        confirmAppointment db aid fp pm = .ok (db', o) → CreditInv db') :=
  ⟨fun patientId A oid => creditInv_recordPayment db patientId A oid h,
   fun patientId A oid db' hok => creditInv_waiveAmount db patientId A oid db' h hok,
   fun aid fp pm db' o hok => creditInv_confirm db aid fp pm db' o h hok⟩

/-- C4 witness: the preservation applied on the patient holding a backed
credit balance of 30. -/
theorem c4_witness :
    CreditInv dbWithCredit
    ∧ CreditInv (recordPayment dbWithCredit 1 25 none) :=
  ⟨by decide, (c4_credit_conservation_amended dbWithCredit (by decide)).1 1 25 none⟩

end Flow
